import Mathlib

/-!
Verification development for the Evergreen scheduling/allocation core and the
agent's `s3.get` command.

The `S3Get` section is a shallow embedding of `src/agent/command/s3_get.go`.
The `Scheduler` and `Cloud` sections model the per-distro task-queue planner,
the queue store, the EC2 provider selector, the price oracle and the billing
boundary computation; their Go bodies are exercised by the tests in the
repository but the bodies themselves are not part of the sampled sources, so
those definitions are modelled from the specification document (each such
definition says so in its doc comment).
-/

namespace S3Get

/-- Parameters of the `s3.get` command, from the `s3get` struct in
`src/agent/command/s3_get.go` (the mapstructure-tagged string fields that
`validateParams` reads). -/
structure S3GetParams where
  awsKey : String
  awsSecret : String
  remoteFile : String
  region : String
  bucket : String
  localFile : String
  extractTo : String
deriving DecidableEq, Repr

/-- The checks of `(*s3get).validateParams` that run after the region default
has been applied (`src/agent/command/s3_get.go` lines 89-104): the bucket-name
check and the `local_file`/`extract_to` mutual-exclusion checks.
`validateS3BucketName` is defined outside the sampled sources, so it is
abstracted as the boolean predicate `bucketValid`. -/
def validateParamsRest (bucketValid : String → Bool) (c : S3GetParams) :
    Except String S3GetParams :=
  if ¬ bucketValid c.bucket then .error "invalid bucket name"
  else if c.localFile ≠ "" ∧ c.extractTo ≠ "" then
    .error "cannot specify both local_file and extract_to directory"
  else if c.localFile = "" ∧ c.extractTo = "" then
    .error "must specify either local_file or extract_to"
  else .ok c

/-- Embedding of `(*s3get).validateParams` from `src/agent/command/s3_get.go`
lines 74-105.  The Go code mutates the receiver (defaulting `Region` to
`us-east-1` between the blank-credential checks and the bucket check); here
the updated parameter record is returned on success. -/
def validateParams (bucketValid : String → Bool) (c : S3GetParams) :
    Except String S3GetParams :=
  if c.awsKey = "" then .error "aws_key cannot be blank"
  else if c.awsSecret = "" then .error "aws_secret cannot be blank"
  else if c.remoteFile = "" then .error "remote_file cannot be blank"
  else validateParamsRest bucketValid
    (if c.region = "" then { c with region := "us-east-1" } else c)

/-- Embedding of the retry loop of `(*s3get).getWithRetry` from
`src/agent/command/s3_get.go` lines 196-221, indexed by fuel (the remaining
attempts) and the current attempt number `i`.  `cancelled i` models the
context's done channel being closed when attempt `i` is reached; `get i`
models attempt `i` of `(*s3get).get` succeeding.  The second component counts
how many times `get` was invoked. -/
def getWithRetryAux (cancelled get : Nat → Bool) :
    Nat → Nat → Except String Unit × Nat
  | 0, _ => (.error "S3 get failed after max attempts", 0)
  | fuel + 1, i =>
    if cancelled i then (.error "s3 get operation aborted", 0)
    else if get i then (.ok (), 1)
    else
      let r := getWithRetryAux cancelled get fuel (i + 1)
      (r.1, r.2 + 1)

/-- Embedding of `(*s3get).getWithRetry`: attempts run from 1 up to
`maxAttempts` (the Go constant `maxS3OpAttempts`, declared outside the sampled
sources, is a parameter here). -/
def getWithRetry (maxAttempts : Nat) (cancelled get : Nat → Bool) :
    Except String Unit × Nat :=
  getWithRetryAux cancelled get maxAttempts 1

lemma getWithRetryAux_count_le (cancelled get : Nat → Bool) :
    ∀ (fuel i : Nat), (getWithRetryAux cancelled get fuel i).2 ≤ fuel
  | 0, _ => Nat.le_refl 0
  | fuel + 1, i => by
    unfold getWithRetryAux
    by_cases hc : cancelled i
    · simp [hc]
    · by_cases hg : get i
      · simp [hc, hg]
      · simpa [hc, hg] using getWithRetryAux_count_le cancelled get fuel (i + 1)

lemma getWithRetryAux_all_fail (cancelled get : Nat → Bool) :
    ∀ (fuel i : Nat),
      (∀ k, i ≤ k → k < i + fuel → cancelled k = false ∧ get k = false) →
      getWithRetryAux cancelled get fuel i =
        (.error "S3 get failed after max attempts", fuel)
  | 0, _, _ => rfl
  | fuel + 1, i, h => by
    have hi := h i (Nat.le_refl i) (by omega)
    unfold getWithRetryAux
    rw [hi.1, hi.2]
    simp only [Bool.false_eq_true, if_false]
    rw [getWithRetryAux_all_fail cancelled get fuel (i + 1)
      (fun k hk1 hk2 => h k (by omega) (by omega))]

lemma getWithRetryAux_first_success (cancelled get : Nat → Bool) :
    ∀ (fuel i j : Nat), i ≤ j → j < i + fuel →
      (∀ k, i ≤ k → k < j → cancelled k = false ∧ get k = false) →
      cancelled j = false → get j = true →
      getWithRetryAux cancelled get fuel i = (.ok (), j + 1 - i)
  | 0, i, j, hij, hlt, _, _, _ => absurd hlt (by omega)
  | fuel + 1, i, j, hij, hlt, h, hcj, hgj => by
    unfold getWithRetryAux
    rcases Nat.eq_or_lt_of_le hij with rfl | hij'
    · rw [hcj, hgj]
      simp only [Bool.false_eq_true, if_false, if_true]
      have hj : i + 1 - i = 1 := by omega
      rw [hj]
    · have hi := h i (Nat.le_refl i) hij'
      rw [hi.1, hi.2]
      simp only [Bool.false_eq_true, if_false]
      rw [getWithRetryAux_first_success cancelled get fuel (i + 1) j (by omega)
        (by omega) (fun k hk1 hk2 => h k (by omega) hk2) hcj hgj]
      have hj : j + 1 - (i + 1) + 1 = j + 1 - i := by omega
      simp only [hj]

lemma getWithRetryAux_cancel_at (cancelled get : Nat → Bool) :
    ∀ (fuel i j : Nat), i ≤ j → j < i + fuel →
      (∀ k, i ≤ k → k < j → cancelled k = false ∧ get k = false) →
      cancelled j = true →
      getWithRetryAux cancelled get fuel i =
        (.error "s3 get operation aborted", j - i)
  | 0, i, j, hij, hlt, _, _ => absurd hlt (by omega)
  | fuel + 1, i, j, hij, hlt, h, hcj => by
    unfold getWithRetryAux
    rcases Nat.eq_or_lt_of_le hij with rfl | hij'
    · rw [hcj]
      simp only [if_true]
      have hj : i - i = 0 := by omega
      rw [hj]
    · have hi := h i (Nat.le_refl i) hij'
      rw [hi.1, hi.2]
      simp only [Bool.false_eq_true, if_false]
      rw [getWithRetryAux_cancel_at cancelled get fuel (i + 1) j (by omega)
        (by omega) (fun k hk1 hk2 => h k (by omega) hk2) hcj]
      have hj : j - (i + 1) + 1 = j - i := by omega
      simp only [hj]

end S3Get

namespace Cloud

/-- An EC2 host as far as billing is concerned: its recorded start time (the
moment billing began; `none` when no start time was recorded), its creation
time, and its billing granularity, derived from the distro's provider and OS
(`true` = hourly, as for Windows hosts; `false` = per-second, as for Linux
hosts).  Times are integer seconds. -/
structure EC2Host where
  id : String
  startTime : Option Int
  creationTime : Int
  hourlyBilling : Bool
deriving DecidableEq, Repr

/-- Modelled from the spec: the hourly-billing branch of
`timeTilNextEC2Payment` (the `cloud` package function exercised by
`TestTimeTilNextPayment`; its body is not among the sampled sources).  Given
the instant `startedAt` when billing began and the current instant `now`, it
returns the duration until the next boundary `startedAt + N · 3600` lying
strictly in the future. -/
def timeTilNextHourlyPayment (startedAt now : Int) : Int :=
  if (startedAt - now) % 3600 = 0 then 3600 else (startedAt - now) % 3600

/-- Modelled from the spec: `timeTilNextEC2Payment` — a per-second-billed host
can be terminated within one second (`now + 1`), an hourly-billed host at its
next hour boundary counted from its recorded start time, falling back to its
creation time when no start time was recorded. -/
def timeTilNextEC2Payment (h : EC2Host) (now : Int) : Int :=
  if h.hourlyBilling then
    timeTilNextHourlyPayment (h.startTime.getD h.creationTime) now
  else 1

lemma timeTilNextHourlyPayment_spec (T now : Int) :
    0 < timeTilNextHourlyPayment T now ∧
    timeTilNextHourlyPayment T now ≤ 3600 ∧
    (∃ N : ℤ, now + timeTilNextHourlyPayment T now = T + N * 3600) ∧
    (∀ M : ℤ, now < T + M * 3600 →
      now + timeTilNextHourlyPayment T now ≤ T + M * 3600) := by
  have h0 : 0 ≤ (T - now) % 3600 := Int.emod_nonneg _ (by norm_num)
  have h1 : (T - now) % 3600 < 3600 := Int.emod_lt_of_pos _ (by norm_num)
  have hq : 3600 * ((T - now) / 3600) + (T - now) % 3600 = T - now :=
    Int.ediv_add_emod _ _
  set q := (T - now) / 3600 with hqdef
  set d := (T - now) % 3600 with hddef
  unfold timeTilNextHourlyPayment
  rw [← hddef]
  by_cases hd : d = 0
  · rw [if_pos hd]
    refine ⟨by norm_num, le_refl _, ⟨1 - q, ?_⟩, ?_⟩
    · have : (1 - q) * 3600 = 3600 - 3600 * q := by ring
      rw [this]
      omega
    · intro M hM
      have hMq : M * 3600 = 3600 * M := by ring
      rw [hMq] at hM ⊢
      omega
  · rw [if_neg hd]
    refine ⟨by omega, by omega, ⟨-q, ?_⟩, ?_⟩
    · have : -q * 3600 = -(3600 * q) := by ring
      rw [this]
      omega
    · intro M hM
      have hMq : M * 3600 = 3600 * M := by ring
      rw [hMq] at hM ⊢
      omega

/-- The provider constants of the `cloud` package's EC2 manager
(`onDemandProvider`, `spotProvider`, `autoProvider`); the manager's `provider`
field is integer-valued (the test assigns it `5` and `-5`), so they are
modelled as integers. -/
def onDemandProvider : Int := 0

/-- See `onDemandProvider`. -/
def spotProvider : Int := 1

/-- See `onDemandProvider`. -/
def autoProvider : Int := 2

/-- The provider name constants `evergreen.ProviderNameEc2OnDemand` and
`evergreen.ProviderNameEc2Spot` written into `h.Distro.Provider`. -/
def ProviderNameEc2OnDemand : String := "ec2-ondemand"

/-- See `ProviderNameEc2OnDemand`. -/
def ProviderNameEc2Spot : String := "ec2-spot"

/-- The slice of the host record that `getProvider` may mutate: the provider
recorded on the host's distro snapshot. -/
structure CloudHost where
  distroProvider : String
deriving DecidableEq, Repr

/-- Modelled from the spec: `(*ec2Manager).getProvider` (exercised by
`TestGetProviderStatic`/`TestGetProviderAuto`; its body is not among the
sampled sources).  A fixed on-demand or spot configuration is returned as-is;
in automatic mode the sampled spot price is compared against the on-demand
price and spot is chosen exactly when it is strictly cheaper; any other
provider value is a configuration error, returned without touching the host. -/
def getProvider (provider : Int) (h : CloudHost) (spotPrice onDemandPrice : ℚ) :
    Except String Int × CloudHost :=
  if provider = onDemandProvider then
    (.ok onDemandProvider, { h with distroProvider := ProviderNameEc2OnDemand })
  else if provider = spotProvider then
    (.ok spotProvider, { h with distroProvider := ProviderNameEc2Spot })
  else if provider = autoProvider then
    if spotPrice < onDemandPrice then
      (.ok spotProvider, { h with distroProvider := ProviderNameEc2Spot })
    else
      (.ok onDemandProvider, { h with distroProvider := ProviderNameEc2OnDemand })
  else (.error "unrecognized provider", h)

/-- Cache key of the on-demand price cache: the `odInfo` struct of the `cloud`
package (billing OS name, instance type, full region name). -/
structure odInfo where
  os : String
  instanceType : String
  region : String
deriving DecidableEq, Repr

/-- The OS values of the `cloud` package's `osType`.  -/
inductive OsType
  | linux
  | suse
  | windows
deriving DecidableEq, Repr

/-- `osBillingName` as pinned down by `TestOnDemandPriceAPITranslation`:
Linux is billed under the name "Linux", every other OS under its own name. -/
def osBillingName : OsType → String
  | .linux => "Linux"
  | .suse => "SUSE Linux"
  | .windows => "Windows"

/-- `regionFullname` as pinned down by `TestOnDemandPriceAPITranslation`:
the three supported AWS regions map to their descriptive names, anything else
is an error. -/
def regionFullname (region : String) : Except String String :=
  if region = "us-east-1" then .ok "US East (N. Virginia)"
  else if region = "us-west-1" then .ok "US West (N. California)"
  else if region = "us-west-2" then .ok "US West (Oregon)"
  else .error "region not supported"

/-- Association-list lookup in the `ec2Prices` cache. -/
def lookupPrice (k : odInfo) : List (odInfo × ℚ) → Option ℚ
  | [] => none
  | (k', p) :: rest => if k' = k then some p else lookupPrice k rest

/-- Modelled from the spec: `(cachingPriceFetcher).getEC2OnDemandCost`
(exercised by `TestFetchOnDemandPricingCached`/`Uncached`; its body is not
among the sampled sources).  The key `(osBillingName os, instance, full
region)` is looked up in the `ec2Prices` cache; a hit returns the cached
scalar with no outbound fetch, a miss consults the external pricing source
(abstracted as `fetch`), stores the result under the key and returns it.  The
result carries the price, the updated cache and the number of outbound
fetches performed. -/
def getEC2OnDemandCost (fetch : odInfo → ℚ) (prices : List (odInfo × ℚ))
    (os : OsType) (instanceType region : String) :
    Except String (ℚ × List (odInfo × ℚ) × Nat) :=
  match regionFullname region with
  | .error e => .error e
  | .ok r =>
    match lookupPrice ⟨osBillingName os, instanceType, r⟩ prices with
    | some p => .ok (p, prices, 0)
    | none =>
      .ok (fetch ⟨osBillingName os, instanceType, r⟩,
        (⟨osBillingName os, instanceType, r⟩,
          fetch ⟨osBillingName os, instanceType, r⟩) :: prices, 1)

end Cloud

namespace Scheduler

/-- A schedulable task, after the shape of `task.Task` as used by
`TestDistroAliases` (id, owning distro, priority, version, alias distros) and
by the spec's data model (enqueue timestamp, expected-duration estimate,
number of dependents used by the weighted strategy's readiness bonus). -/
structure Task where
  id : String
  distroId : String
  priority : Int
  version : String
  distroAliases : List String
  enqueueTime : Int
  expectedDuration : Int
  numDependents : Int
deriving DecidableEq, Repr

/-- Modelled from the spec: the scoring weights of the weighted (tunable)
planner strategy — a configurable linear combination of raw priority,
time-waited-in-queue, dependency-readiness bonus and expected duration. -/
structure PlannerConfig where
  priorityWeight : ℚ
  waitedWeight : ℚ
  dependencyWeight : ℚ
  durationWeight : ℚ
deriving DecidableEq, Repr

/-- Modelled from the spec: default scoring weights (the spec leaves the
default coefficients open; neutral positive unit weights are used). -/
def defaultPlannerConfig : PlannerConfig := ⟨1, 1, 1, 1⟩

/-- The planner-version constant `evergreen.PlannerVersionTunable`. -/
def PlannerVersionTunable : String := "tunable"

/-- The planner-version constant `evergreen.PlannerVersionLegacy`. -/
def PlannerVersionLegacy : String := "legacy"

/-- The distro's `PlannerSettings`: strategy version plus scoring weights. -/
structure PlannerSettings where
  version : String
  config : PlannerConfig
deriving DecidableEq, Repr

/-- A distro as the planner sees it, after `distro.Distro` in
`TestDistroAliases`. -/
structure Distro where
  id : String
  plannerSettings : PlannerSettings
deriving DecidableEq, Repr

/-- The `TaskPlannerOptions` passed to `PrioritizeTasks`: the generation
identifier and whether this build targets the secondary (alias) queue. -/
structure TaskPlannerOptions where
  ID : String
  isSecondaryQueue : Bool
deriving DecidableEq, Repr

/-- A persisted task-queue record: the distro key, the generation identifier
and the ordered task ids. -/
structure TaskQueueRecord where
  distro : String
  generationId : String
  queue : List String
deriving DecidableEq, Repr

/-- The two task-queue collections (`model.TaskQueuesCollection` and
`model.TaskAliasQueuesCollection`), each a list of persisted records keyed by
distro. -/
structure QueueState where
  taskQueues : List TaskQueueRecord
  taskAliasQueues : List TaskQueueRecord
deriving DecidableEq, Repr

/-- Modelled from the spec: the weighted strategy's per-task score — a linear
combination of raw priority, time waited in queue, dependency-readiness bonus
and expected duration. -/
def score (cfg : PlannerConfig) (now : Int) (t : Task) : ℚ :=
  cfg.priorityWeight * (t.priority : ℚ) +
    cfg.waitedWeight * ((now - t.enqueueTime : Int) : ℚ) +
    cfg.dependencyWeight * (t.numDependents : ℚ) +
    cfg.durationWeight * (t.expectedDuration : ℚ)

/-- Modelled from the spec: the stable secondary key shared by both
strategies — enqueue time ascending, then task identifier ascending. -/
def taskTieBreak (a b : Task) : Prop :=
  a.enqueueTime < b.enqueueTime ∨
    (a.enqueueTime = b.enqueueTime ∧ a.id ≤ b.id)

/-- Modelled from the spec: the legacy (simple) strategy's order — priority
descending, ties broken by the stable secondary key. -/
def simpleOrder (a b : Task) : Prop :=
  b.priority < a.priority ∨ (a.priority = b.priority ∧ taskTieBreak a b)

/-- Modelled from the spec: the tunable (weighted) strategy's order — score
descending, ties broken identically to the simple strategy. -/
def tunableOrder (cfg : PlannerConfig) (now : Int) (a b : Task) : Prop :=
  score cfg now b < score cfg now a ∨
    (score cfg now a = score cfg now b ∧ taskTieBreak a b)

instance (a b : Task) : Decidable (taskTieBreak a b) := by
  unfold taskTieBreak
  infer_instance

instance (a b : Task) : Decidable (simpleOrder a b) := by
  unfold simpleOrder
  infer_instance

instance (cfg : PlannerConfig) (now : Int) (a b : Task) :
    Decidable (tunableOrder cfg now a b) := by
  unfold tunableOrder
  infer_instance

/-- The legacy (simple) planner strategy: a stable sort of the candidate set
under `simpleOrder`. -/
def rankLegacy (tasks : List Task) : List Task :=
  List.insertionSort simpleOrder tasks

/-- The tunable (weighted) planner strategy: a stable sort of the candidate
set under `tunableOrder`. -/
def rankTunable (cfg : PlannerConfig) (now : Int) (tasks : List Task) : List Task :=
  List.insertionSort (tunableOrder cfg now) tasks

/-- Queue-store replace: the record for `key` fully supersedes any prior
record under the same key (the queue is fully replaced each cycle, never
patched). -/
def upsert (key : String) (qrec : TaskQueueRecord) (l : List TaskQueueRecord) :
    List TaskQueueRecord :=
  qrec :: l.filter (fun r => !(r.distro == key))

/-- Modelled from the spec: persisting a planned queue.  A primary build
replaces the record under the distro's key in the primary collection; a
secondary (alias) build replaces the record in the alias collection.  The
generation identifier comes from the planner options. -/
def persistQueue (d : Distro) (opts : TaskPlannerOptions) (st : QueueState)
    (ranked : List Task) : List Task × QueueState :=
  let qrec : TaskQueueRecord := ⟨d.id, opts.ID, ranked.map Task.id⟩
  if opts.isSecondaryQueue then
    (ranked, { st with taskAliasQueues := upsert d.id qrec st.taskAliasQueues })
  else
    (ranked, { st with taskQueues := upsert d.id qrec st.taskQueues })

/-- Modelled from the spec: `PrioritizeTasks` (the `scheduler` package
function exercised by `TestDistroAliases`; its body is not among the sampled
sources).  It ranks the candidate set with the strategy selected by the
distro's planner version (an unknown version is a configuration error,
leaving the store untouched) and persists the result in the collection
selected by `opts.isSecondaryQueue`. -/
def PrioritizeTasks (now : Int) (d : Distro) (tasks : List Task)
    (opts : TaskPlannerOptions) (st : QueueState) :
    Except String (List Task × QueueState) :=
  if d.plannerSettings.version = PlannerVersionTunable then
    .ok (persistQueue d opts st (rankTunable d.plannerSettings.config now tasks))
  else if d.plannerSettings.version = PlannerVersionLegacy then
    .ok (persistQueue d opts st (rankLegacy tasks))
  else .error "unrecognized planner version"

/-- Observable summary of one `PrioritizeTasks` run: the ordered task ids and
the record counts of the primary and alias collections. -/
def planSummary (r : Except String (List Task × QueueState)) :
    Option (List String × Nat × Nat) :=
  match r with
  | .error _ => none
  | .ok (out, st) =>
      some (out.map Task.id, st.taskQueues.length, st.taskAliasQueues.length)

lemma orderedInsert_congr {α : Type} (r s : α → α → Prop)
    [DecidableRel r] [DecidableRel s] (a : α) (l : List α)
    (h : ∀ b ∈ l, (r a b ↔ s a b)) :
    l.orderedInsert r a = l.orderedInsert s a := by
  induction l with
  | nil => rfl
  | cons b t ih =>
    simp only [List.orderedInsert]
    by_cases hr : r a b
    · rw [if_pos hr, if_pos ((h b (List.mem_cons_self b t)).mp hr)]
    · rw [if_neg hr, if_neg (fun hs => hr ((h b (List.mem_cons_self b t)).mpr hs)),
        ih (fun c hc => h c (List.mem_cons_of_mem b hc))]

lemma insertionSort_congr {α : Type} (r s : α → α → Prop)
    [DecidableRel r] [DecidableRel s] (l : List α)
    (h : ∀ a ∈ l, ∀ b ∈ l, (r a b ↔ s a b)) :
    List.insertionSort r l = List.insertionSort s l := by
  induction l with
  | nil => rfl
  | cons a t ih =>
    simp only [List.insertionSort]
    rw [ih (fun x hx y hy =>
      h x (List.mem_cons_of_mem a hx) y (List.mem_cons_of_mem a hy))]
    exact orderedInsert_congr r s a (List.insertionSort s t)
      (fun b hb => h a (List.mem_cons_self a t) b
        (List.mem_cons_of_mem a ((List.perm_insertionSort s t).subset hb)))

lemma score_sub_of_factors_eq (cfg : PlannerConfig) (now : Int) {a b : Task}
    (henq : a.enqueueTime = b.enqueueTime)
    (hdur : a.expectedDuration = b.expectedDuration)
    (hdep : a.numDependents = b.numDependents) :
    score cfg now a - score cfg now b =
      cfg.priorityWeight * ((a.priority : ℚ) - (b.priority : ℚ)) := by
  unfold score
  rw [henq, hdur, hdep]
  ring

lemma tunableOrder_iff_simpleOrder (cfg : PlannerConfig) (now : Int)
    (hW : 0 < cfg.priorityWeight) {a b : Task}
    (henq : a.enqueueTime = b.enqueueTime)
    (hdur : a.expectedDuration = b.expectedDuration)
    (hdep : a.numDependents = b.numDependents) :
    (tunableOrder cfg now a b ↔ simpleOrder a b) := by
  have hab := score_sub_of_factors_eq cfg now henq hdur hdep
  have hlt : (score cfg now b < score cfg now a) ↔ (b.priority < a.priority) := by
    rw [← sub_pos, hab, mul_pos_iff_of_pos_left hW, sub_pos, Int.cast_lt]
  have heq : (score cfg now a = score cfg now b) ↔ (a.priority = b.priority) := by
    rw [← sub_eq_zero, hab]
    constructor
    · intro hx
      rcases mul_eq_zero.mp hx with h | h
      · exact absurd h (ne_of_gt hW)
      · have : (a.priority : ℚ) = (b.priority : ℚ) := sub_eq_zero.mp h
        exact_mod_cast this
    · intro hx
      have : (a.priority : ℚ) - (b.priority : ℚ) = 0 := by
        rw [sub_eq_zero]
        exact_mod_cast hx
      rw [this, mul_zero]
  unfold tunableOrder simpleOrder
  rw [hlt, heq]

/-- Degenerate candidate set: every non-priority scoring factor agrees across
the whole set. -/
def DegenerateFactors (tasks : List Task) : Prop :=
  ∀ a ∈ tasks, ∀ b ∈ tasks,
    a.enqueueTime = b.enqueueTime ∧
    a.expectedDuration = b.expectedDuration ∧
    a.numDependents = b.numDependents

instance (tasks : List Task) : Decidable (DegenerateFactors tasks) := by
  unfold DegenerateFactors
  infer_instance

lemma rank_agree (cfg : PlannerConfig) (now : Int) (tasks : List Task)
    (hW : 0 < cfg.priorityWeight) (hdeg : DegenerateFactors tasks) :
    rankTunable cfg now tasks = rankLegacy tasks :=
  insertionSort_congr (tunableOrder cfg now) simpleOrder tasks
    (fun a ha b hb => tunableOrder_iff_simpleOrder cfg now hW
      (hdeg a ha b hb).1 (hdeg a ha b hb).2.1 (hdeg a ha b hb).2.2)

lemma simpleOrder_total : ∀ a b : Task, simpleOrder a b ∨ simpleOrder b a := by
  intro a b
  unfold simpleOrder taskTieBreak
  rcases lt_trichotomy a.priority b.priority with h | h | h
  · right
    left
    exact h
  · rcases lt_trichotomy a.enqueueTime b.enqueueTime with h2 | h2 | h2
    · left
      right
      exact ⟨h, Or.inl h2⟩
    · rcases le_total a.id b.id with h3 | h3
      · left
        right
        exact ⟨h, Or.inr ⟨h2, h3⟩⟩
      · right
        right
        exact ⟨h.symm, Or.inr ⟨h2.symm, h3⟩⟩
    · right
      right
      exact ⟨h.symm, Or.inl h2⟩
  · left
    left
    exact h

lemma simpleOrder_trans : ∀ a b c : Task,
    simpleOrder a b → simpleOrder b c → simpleOrder a c := by
  intro a b c hab hbc
  unfold simpleOrder taskTieBreak at *
  rcases hab with h1 | ⟨h1, t1⟩ <;> rcases hbc with h2 | ⟨h2, t2⟩
  · left
    omega
  · left
    omega
  · left
    omega
  · rcases t1 with e1 | ⟨e1, i1⟩ <;> rcases t2 with e2 | ⟨e2, i2⟩
    · exact Or.inr ⟨by omega, Or.inl (by omega)⟩
    · exact Or.inr ⟨by omega, Or.inl (by omega)⟩
    · exact Or.inr ⟨by omega, Or.inl (by omega)⟩
    · exact Or.inr ⟨by omega, Or.inr ⟨by omega, le_trans i1 i2⟩⟩

instance : IsTotal Task simpleOrder := ⟨simpleOrder_total⟩

instance : IsTrans Task simpleOrder := ⟨simpleOrder_trans⟩

lemma rankLegacy_sorted (tasks : List Task) :
    List.Sorted simpleOrder (rankLegacy tasks) :=
  List.sorted_insertionSort simpleOrder tasks

lemma rankLegacy_perm (tasks : List Task) : List.Perm (rankLegacy tasks) tasks :=
  List.perm_insertionSort simpleOrder tasks

lemma rankLegacy_pairwise_priority (tasks : List Task)
    (hdist : tasks.Pairwise (fun a b => a.priority ≠ b.priority)) :
    (rankLegacy tasks).Pairwise (fun a b => b.priority < a.priority) := by
  have hdist' : (rankLegacy tasks).Pairwise (fun a b => a.priority ≠ b.priority) :=
    ((rankLegacy_perm tasks).pairwise_iff (fun h => h.symm)).mpr hdist
  have hsorted := rankLegacy_sorted tasks
  have := List.Pairwise.and hsorted hdist'
  refine this.imp ?_
  rintro a b ⟨hs, hne⟩
  rcases hs with h | ⟨h, _⟩
  · exact h
  · exact absurd h hne

/-- The task `{id: "one", distro: "one", priority: 2000}` with alias distro
`"two"` from `TestDistroAliases`. -/
def taskOne : Task := ⟨"one", "one", 2000, "foo", ["two"], 0, 0, 0⟩

/-- The task `{id: "other", distro: "one", priority: 200}` with alias distro
`"two"` from `TestDistroAliases`. -/
def taskOther : Task := ⟨"other", "one", 200, "foo", ["two"], 0, 0, 0⟩

/-- Counterexample input: a task of priority 2 that just entered the queue. -/
def taskHighPriority : Task := ⟨"a", "d", 2, "v", [], 100, 0, 0⟩

/-- Counterexample input: a task of priority 1 that has waited 100 seconds. -/
def taskLongWaiting : Task := ⟨"b", "d", 1, "v", [], 0, 0, 0⟩

/-- Counterexample configuration: unit weights on priority and time waited. -/
def counterexampleConfig : PlannerConfig := ⟨1, 1, 0, 0⟩

end Scheduler

/-- C3: `timeTilNextEC2Payment` — for an hourly-billed host with recorded
start time `T`, the returned duration lands on `T + N · 3600` for the smallest
`N` putting that instant strictly in the future; for a per-second-billed host
the duration is (within) one second; for an hourly-billed host with no
recorded start time the hourly computation is applied from its creation time. -/
theorem cloud_timeTilNextEC2Payment_spec (h : Cloud.EC2Host) (now : Int) :
    (∀ T, h.hourlyBilling = true → h.startTime = some T →
      0 < Cloud.timeTilNextEC2Payment h now ∧
      Cloud.timeTilNextEC2Payment h now ≤ 3600 ∧
      (∃ N : ℤ, now + Cloud.timeTilNextEC2Payment h now = T + N * 3600) ∧
      (∀ M : ℤ, now < T + M * 3600 →
        now + Cloud.timeTilNextEC2Payment h now ≤ T + M * 3600)) ∧
    (h.hourlyBilling = false → Cloud.timeTilNextEC2Payment h now = 1) ∧
    (h.hourlyBilling = true → h.startTime = none →
      Cloud.timeTilNextEC2Payment h now =
        Cloud.timeTilNextHourlyPayment h.creationTime now) := by
  refine ⟨?_, ?_, ?_⟩
  · intro T hb hs
    have : Cloud.timeTilNextEC2Payment h now = Cloud.timeTilNextHourlyPayment T now := by
      unfold Cloud.timeTilNextEC2Payment
      rw [hb, hs]
      rfl
    rw [this]
    exact Cloud.timeTilNextHourlyPayment_spec T now
  · intro hb
    unfold Cloud.timeTilNextEC2Payment
    rw [hb]
    rfl
  · intro hb hs
    unfold Cloud.timeTilNextEC2Payment
    rw [hb, hs]
    rfl

/-- Witness for `cloud_timeTilNextEC2Payment_spec`: a Windows (hourly) host
that started at second 3600 and is observed at second 5400 pays next at
second 7200 (duration 1800); a Linux (per-second) host is one second away;
a start-time-less hourly host falls back to creation time. -/
theorem cloud_timeTilNextEC2Payment_spec_witness :
    (0 < Cloud.timeTilNextEC2Payment ⟨"hourlyHost", some 3600, 1800, true⟩ 5400 ∧
      Cloud.timeTilNextEC2Payment ⟨"hourlyHost", some 3600, 1800, true⟩ 5400 ≤ 3600 ∧
      (∃ N : ℤ, 5400 + Cloud.timeTilNextEC2Payment
          ⟨"hourlyHost", some 3600, 1800, true⟩ 5400 = 3600 + N * 3600) ∧
      (∀ M : ℤ, (5400 : ℤ) < 3600 + M * 3600 →
        5400 + Cloud.timeTilNextEC2Payment
          ⟨"hourlyHost", some 3600, 1800, true⟩ 5400 ≤ 3600 + M * 3600)) ∧
    Cloud.timeTilNextEC2Payment ⟨"secondlyHost", some 1800, 0, false⟩ 5400 = 1 ∧
    Cloud.timeTilNextEC2Payment ⟨"hourlyHostNoStartTime", none, 0, true⟩ 5400 =
      Cloud.timeTilNextHourlyPayment 0 5400 :=
  ⟨(cloud_timeTilNextEC2Payment_spec ⟨"hourlyHost", some 3600, 1800, true⟩ 5400).1
      3600 rfl rfl,
    (cloud_timeTilNextEC2Payment_spec ⟨"secondlyHost", some 1800, 0, false⟩ 5400).2.1
      rfl,
    (cloud_timeTilNextEC2Payment_spec ⟨"hourlyHostNoStartTime", none, 0, true⟩ 5400).2.2
      rfl rfl⟩

/-- C2: in automatic provider mode, `getProvider` chooses the spot provider
exactly when the sampled spot price is strictly below the on-demand price, and
chooses on-demand whenever the spot price equals or exceeds it. -/
theorem cloud_getProvider_auto_spec (h : Cloud.CloudHost) (spot onDemand : ℚ) :
    ((Cloud.getProvider Cloud.autoProvider h spot onDemand).1 =
        .ok Cloud.spotProvider ↔ spot < onDemand) ∧
    (spot < onDemand →
      (Cloud.getProvider Cloud.autoProvider h spot onDemand).2.distroProvider =
        Cloud.ProviderNameEc2Spot) ∧
    (onDemand ≤ spot →
      (Cloud.getProvider Cloud.autoProvider h spot onDemand).1 =
          .ok Cloud.onDemandProvider ∧
      (Cloud.getProvider Cloud.autoProvider h spot onDemand).2.distroProvider =
        Cloud.ProviderNameEc2OnDemand) := by
  unfold Cloud.getProvider
  rw [if_neg (by decide), if_neg (by decide), if_pos rfl]
  by_cases hlt : spot < onDemand
  · rw [if_pos hlt]
    exact ⟨⟨fun _ => hlt, fun _ => rfl⟩, fun _ => rfl,
      fun hle => absurd hlt (not_lt.mpr hle)⟩
  · rw [if_neg hlt]
    refine ⟨⟨fun hcon => ?_, fun hcon => absurd hcon hlt⟩,
      fun hcon => absurd hcon hlt, fun _ => ⟨rfl, rfl⟩⟩
    exact absurd (congrArg (fun e => e = Except.ok Cloud.spotProvider) hcon)
      (by simp [Cloud.onDemandProvider, Cloud.spotProvider])

/-- Witness for `cloud_getProvider_auto_spec`: with on-demand price 0.1, a
spot sample of 0.05 selects spot, while a spot sample of 0.1 selects
on-demand (the spec's Price Oracle example). -/
theorem cloud_getProvider_auto_spec_witness :
    (Cloud.getProvider Cloud.autoProvider ⟨""⟩ (1/20) (1/10)).2.distroProvider =
      Cloud.ProviderNameEc2Spot ∧
    ((Cloud.getProvider Cloud.autoProvider ⟨""⟩ (1/10) (1/10)).1 =
        .ok Cloud.onDemandProvider ∧
    (Cloud.getProvider Cloud.autoProvider ⟨""⟩ (1/10) (1/10)).2.distroProvider =
      Cloud.ProviderNameEc2OnDemand) :=
  ⟨(cloud_getProvider_auto_spec ⟨""⟩ (1/20) (1/10)).2.1 (by norm_num),
    (cloud_getProvider_auto_spec ⟨""⟩ (1/10) (1/10)).2.2 (by norm_num)⟩

/-- C8: `getProvider` succeeds exactly on the recognized provider
configurations (on-demand, spot, automatic); any other provider value (such
as `5` or `-5`) yields an error, returned with the host state untouched. -/
theorem cloud_getProvider_static_spec (p : Int) (h : Cloud.CloudHost)
    (spot onDemand : ℚ) :
    ((Cloud.getProvider p h spot onDemand).1.isOk = true ↔
      (p = Cloud.onDemandProvider ∨ p = Cloud.spotProvider ∨
        p = Cloud.autoProvider)) ∧
    (¬(p = Cloud.onDemandProvider ∨ p = Cloud.spotProvider ∨
        p = Cloud.autoProvider) →
      Cloud.getProvider p h spot onDemand = (.error "unrecognized provider", h)) := by
  constructor
  · unfold Cloud.getProvider
    split_ifs with h1 h2 h3 h4 <;>
      simp_all [Except.isOk, Except.toBool]
  · intro hbad
    unfold Cloud.getProvider
    rw [if_neg (fun hc => hbad (Or.inl hc)),
      if_neg (fun hc => hbad (Or.inr (Or.inl hc))),
      if_neg (fun hc => hbad (Or.inr (Or.inr hc)))]

/-- Witness for `cloud_getProvider_static_spec`: provider values `5` and `-5`
are rejected with the host left unchanged. -/
theorem cloud_getProvider_static_spec_witness :
    Cloud.getProvider 5 ⟨"d"⟩ 1 2 = (.error "unrecognized provider", ⟨"d"⟩) ∧
    Cloud.getProvider (-5) ⟨"d"⟩ 1 2 = (.error "unrecognized provider", ⟨"d"⟩) :=
  ⟨(cloud_getProvider_static_spec 5 ⟨"d"⟩ 1 2).2 (by decide),
    (cloud_getProvider_static_spec (-5) ⟨"d"⟩ 1 2).2 (by decide)⟩

/-- C4: `getEC2OnDemandCost` — for a supported region, a key present in the
price cache is answered from the cache with no outbound fetch and no cache
change; a missing key triggers exactly one fetch whose result is stored under
the key and returned, so that the same lookup afterwards is answered from the
cache. -/
theorem cloud_getEC2OnDemandCost_spec (fetch : Cloud.odInfo → ℚ)
    (prices : List (Cloud.odInfo × ℚ)) (os : Cloud.OsType)
    (instanceType region r : String)
    (hr : Cloud.regionFullname region = .ok r) :
    (∀ p, Cloud.lookupPrice ⟨Cloud.osBillingName os, instanceType, r⟩ prices = some p →
      Cloud.getEC2OnDemandCost fetch prices os instanceType region =
        .ok (p, prices, 0)) ∧
    (Cloud.lookupPrice ⟨Cloud.osBillingName os, instanceType, r⟩ prices = none →
      Cloud.getEC2OnDemandCost fetch prices os instanceType region =
        .ok (fetch ⟨Cloud.osBillingName os, instanceType, r⟩,
          (⟨Cloud.osBillingName os, instanceType, r⟩,
            fetch ⟨Cloud.osBillingName os, instanceType, r⟩) :: prices, 1) ∧
      Cloud.getEC2OnDemandCost fetch
          ((⟨Cloud.osBillingName os, instanceType, r⟩,
            fetch ⟨Cloud.osBillingName os, instanceType, r⟩) :: prices)
          os instanceType region =
        .ok (fetch ⟨Cloud.osBillingName os, instanceType, r⟩,
          (⟨Cloud.osBillingName os, instanceType, r⟩,
            fetch ⟨Cloud.osBillingName os, instanceType, r⟩) :: prices, 0)) := by
  constructor
  · intro p hp
    unfold Cloud.getEC2OnDemandCost
    rw [hr]
    dsimp only
    rw [hp]
  · intro hmiss
    constructor
    · unfold Cloud.getEC2OnDemandCost
      rw [hr]
      dsimp only
      rw [hmiss]
    · unfold Cloud.getEC2OnDemandCost
      rw [hr]
      dsimp only
      have hhit : Cloud.lookupPrice ⟨Cloud.osBillingName os, instanceType, r⟩
          ((⟨Cloud.osBillingName os, instanceType, r⟩,
            fetch ⟨Cloud.osBillingName os, instanceType, r⟩) :: prices) =
          some (fetch ⟨Cloud.osBillingName os, instanceType, r⟩) := by
        unfold Cloud.lookupPrice
        rw [if_pos rfl]
      rw [hhit]

/-- Witness for `cloud_getEC2OnDemandCost_spec`: starting from an empty cache,
fetching the Linux `c3.4xlarge` price in `us-east-1` performs one outbound
fetch (price 0.84, as in `TestFetchOnDemandPricingUncached`), and the repeated
call is served from the now-populated cache with zero fetches. -/
theorem cloud_getEC2OnDemandCost_spec_witness :
    Cloud.getEC2OnDemandCost (fun _ => 84/100) [] Cloud.OsType.linux
        "c3.4xlarge" "us-east-1" =
      .ok (84/100, [(⟨"Linux", "c3.4xlarge", "US East (N. Virginia)"⟩, 84/100)], 1) ∧
    Cloud.getEC2OnDemandCost (fun _ => 84/100)
        [(⟨"Linux", "c3.4xlarge", "US East (N. Virginia)"⟩, 84/100)]
        Cloud.OsType.linux "c3.4xlarge" "us-east-1" =
      .ok (84/100, [(⟨"Linux", "c3.4xlarge", "US East (N. Virginia)"⟩, 84/100)], 0) :=
  (cloud_getEC2OnDemandCost_spec (fun _ => 84/100) [] Cloud.OsType.linux
    "c3.4xlarge" "us-east-1" "US East (N. Virginia)" (by rfl)).2 (by rfl)

/-- C5: on a degenerate candidate set — all non-priority scoring factors
equal across the set — the tunable (weighted) strategy and the legacy
(simple) strategy produce identical task orderings (for any configuration
whose priority weight is positive). -/
theorem scheduler_strategies_agree_degenerate (cfg : Scheduler.PlannerConfig)
    (now : Int) (tasks : List Scheduler.Task)
    (hW : 0 < cfg.priorityWeight) (hdeg : Scheduler.DegenerateFactors tasks) :
    Scheduler.rankTunable cfg now tasks = Scheduler.rankLegacy tasks :=
  Scheduler.rank_agree cfg now tasks hW hdeg

/-- Witness for `scheduler_strategies_agree_degenerate`: the two-task set of
`TestDistroAliases` (equal enqueue times, durations and dependent counts) is
ranked identically by both strategies under the default configuration. -/
theorem scheduler_strategies_agree_degenerate_witness :
    Scheduler.rankTunable Scheduler.defaultPlannerConfig 0
        [Scheduler.taskOther, Scheduler.taskOne] =
      Scheduler.rankLegacy [Scheduler.taskOther, Scheduler.taskOne] :=
  scheduler_strategies_agree_degenerate Scheduler.defaultPlannerConfig 0
    [Scheduler.taskOther, Scheduler.taskOne]
    (by norm_num [Scheduler.defaultPlannerConfig]) (by decide)

/-- C6 counterexample: under the weighted strategy with unit weights on
priority and time waited, a priority-1 task that has waited 100 seconds
outscores a priority-2 task that just arrived, so a task set with
pairwise-distinct priorities is *not* ordered by priority descending. -/
theorem scheduler_priority_descending_counterexample :
    Scheduler.taskLongWaiting.priority < Scheduler.taskHighPriority.priority ∧
    (Scheduler.rankTunable Scheduler.counterexampleConfig 100
        [Scheduler.taskHighPriority, Scheduler.taskLongWaiting]).map
        Scheduler.Task.id = ["b", "a"] ∧
    ¬ (Scheduler.rankTunable Scheduler.counterexampleConfig 100
        [Scheduler.taskHighPriority, Scheduler.taskLongWaiting]).Pairwise
        (fun a b => b.priority < a.priority) := by
  have heval : Scheduler.rankTunable Scheduler.counterexampleConfig 100
      [Scheduler.taskHighPriority, Scheduler.taskLongWaiting] =
      [Scheduler.taskLongWaiting, Scheduler.taskHighPriority] := by
    unfold Scheduler.rankTunable
    simp only [List.insertionSort, List.orderedInsert]
    norm_num [Scheduler.tunableOrder, Scheduler.score, Scheduler.taskTieBreak,
      Scheduler.counterexampleConfig, Scheduler.taskHighPriority,
      Scheduler.taskLongWaiting]
  rw [heval]
  refine ⟨by decide, by decide, ?_⟩
  intro hp
  have := List.rel_of_pairwise_cons hp (List.mem_cons_self _ _)
  revert this
  decide

/-- C6 (amended): on candidate sets with pairwise-distinct priorities *whose
non-priority factors are all equal* (and a positive priority weight), both
strategies order the tasks by priority descending. -/
theorem scheduler_priority_descending_degenerate (cfg : Scheduler.PlannerConfig)
    (now : Int) (tasks : List Scheduler.Task)
    (hW : 0 < cfg.priorityWeight) (hdeg : Scheduler.DegenerateFactors tasks)
    (hdist : tasks.Pairwise (fun a b => a.priority ≠ b.priority)) :
    (Scheduler.rankLegacy tasks).Pairwise (fun a b => b.priority < a.priority) ∧
    (Scheduler.rankTunable cfg now tasks).Pairwise
      (fun a b => b.priority < a.priority) := by
  constructor
  · exact Scheduler.rankLegacy_pairwise_priority tasks hdist
  · rw [Scheduler.rank_agree cfg now tasks hW hdeg]
    exact Scheduler.rankLegacy_pairwise_priority tasks hdist

/-- Witness for `scheduler_priority_descending_degenerate`: the two tasks of
`TestDistroAliases` (priorities 2000 and 200, all other factors equal) come
out in descending priority order under both strategies. -/
theorem scheduler_priority_descending_degenerate_witness :
    (Scheduler.rankLegacy [Scheduler.taskOther, Scheduler.taskOne]).Pairwise
      (fun a b => b.priority < a.priority) ∧
    (Scheduler.rankTunable Scheduler.defaultPlannerConfig 0
        [Scheduler.taskOther, Scheduler.taskOne]).Pairwise
      (fun a b => b.priority < a.priority) :=
  scheduler_priority_descending_degenerate Scheduler.defaultPlannerConfig 0
    [Scheduler.taskOther, Scheduler.taskOne]
    (by norm_num [Scheduler.defaultPlannerConfig]) (by decide) (by decide)

/-- C7: a successful `PrioritizeTasks` run that targets the primary queue
leaves the alias (secondary) collection untouched, and one that targets the
secondary queue leaves the primary collection untouched — the two queues live
in separate stores and never collide. -/
theorem scheduler_prioritizeTasks_frame (now : Int) (d : Scheduler.Distro)
    (tasks : List Scheduler.Task) (opts : Scheduler.TaskPlannerOptions)
    (st : Scheduler.QueueState) (out : List Scheduler.Task)
    (st' : Scheduler.QueueState)
    (h : Scheduler.PrioritizeTasks now d tasks opts st = .ok (out, st')) :
    (opts.isSecondaryQueue = false →
      st'.taskAliasQueues = st.taskAliasQueues) ∧
    (opts.isSecondaryQueue = true → st'.taskQueues = st.taskQueues) := by
  unfold Scheduler.PrioritizeTasks at h
  split_ifs at h with h1 h2 <;> try exact Except.noConfusion h
  all_goals
    cases hsec : opts.isSecondaryQueue <;>
      simp only [Scheduler.persistQueue, hsec, if_true, Bool.false_eq_true,
        if_false] at h <;>
      [skip; skip] <;>
      · injection h with h
        injection h with hout hst
        subst hst
        constructor <;> intro hx <;> simp_all

/-- Witness for `scheduler_prioritizeTasks_frame`: the primary legacy build of
`TestDistroAliases` on distro "one" leaves a pre-existing alias-queue record
untouched. -/
theorem scheduler_prioritizeTasks_frame_witness :
    (Scheduler.QueueState.mk
        [⟨"one", "legacy-1", ["one", "other"]⟩] [⟨"two", "g0", ["x"]⟩]).taskAliasQueues =
      (Scheduler.QueueState.mk [] [⟨"two", "g0", ["x"]⟩]).taskAliasQueues :=
  (scheduler_prioritizeTasks_frame 0
    ⟨"one", ⟨Scheduler.PlannerVersionLegacy, Scheduler.defaultPlannerConfig⟩⟩
    [Scheduler.taskOther, Scheduler.taskOne] ⟨"legacy-1", false⟩
    ⟨[], [⟨"two", "g0", ["x"]⟩]⟩
    [Scheduler.taskOne, Scheduler.taskOther]
    ⟨[⟨"one", "legacy-1", ["one", "other"]⟩], [⟨"two", "g0", ["x"]⟩]⟩
    (by rfl)).1 rfl

/-- C1: the end-to-end `TestDistroAliases` scenario — for the two tasks
`{id: "one", priority: 2000}` and `{id: "other", priority: 200}` of distro
"one" that alias distro "two", building the primary queue for "one" and the
secondary queue for "two" under either strategy orders them
`["one", "other"]`; the primary build persists exactly one record in the
primary collection and none in the alias collection, and the secondary build
persists exactly one record in the alias collection and none in the primary
collection. -/
theorem scheduler_distro_aliases_end_to_end :
    Scheduler.planSummary (Scheduler.PrioritizeTasks 0
        ⟨"one", ⟨Scheduler.PlannerVersionTunable, Scheduler.defaultPlannerConfig⟩⟩
        [Scheduler.taskOther, Scheduler.taskOne] ⟨"tunable-0", false⟩ ⟨[], []⟩) =
      some (["one", "other"], 1, 0) ∧
    Scheduler.planSummary (Scheduler.PrioritizeTasks 0
        ⟨"one", ⟨Scheduler.PlannerVersionLegacy, Scheduler.defaultPlannerConfig⟩⟩
        [Scheduler.taskOther, Scheduler.taskOne] ⟨"legacy-1", false⟩ ⟨[], []⟩) =
      some (["one", "other"], 1, 0) ∧
    Scheduler.planSummary (Scheduler.PrioritizeTasks 0
        ⟨"two", ⟨Scheduler.PlannerVersionTunable, Scheduler.defaultPlannerConfig⟩⟩
        [Scheduler.taskOther, Scheduler.taskOne] ⟨"tunable-0", true⟩ ⟨[], []⟩) =
      some (["one", "other"], 0, 1) ∧
    Scheduler.planSummary (Scheduler.PrioritizeTasks 0
        ⟨"two", ⟨Scheduler.PlannerVersionLegacy, Scheduler.defaultPlannerConfig⟩⟩
        [Scheduler.taskOther, Scheduler.taskOne] ⟨"legacy-0", true⟩ ⟨[], []⟩) =
      some (["one", "other"], 0, 1) := by
  have hrank : Scheduler.rankTunable Scheduler.defaultPlannerConfig 0
      [Scheduler.taskOther, Scheduler.taskOne] =
      [Scheduler.taskOne, Scheduler.taskOther] := by
    unfold Scheduler.rankTunable
    simp only [List.insertionSort, List.orderedInsert]
    norm_num [Scheduler.tunableOrder, Scheduler.score, Scheduler.taskTieBreak,
      Scheduler.defaultPlannerConfig, Scheduler.taskOne, Scheduler.taskOther]
  refine ⟨?_, ?_, ?_, ?_⟩
  · unfold Scheduler.PrioritizeTasks
    dsimp only
    rw [if_pos rfl, hrank]
    decide
  · decide
  · unfold Scheduler.PrioritizeTasks
    dsimp only
    rw [if_pos rfl, hrank]
    decide
  · decide

/-- C9: `s3get.validateParams` errors whenever `aws_key`, `aws_secret` or
`remote_file` is blank, or both of `local_file`/`extract_to` are set, or
neither is; on success the returned configuration has a non-empty region (an
empty region defaulted to `us-east-1`) and exactly one of `local_file` and
`extract_to` set. -/
theorem s3get_validateParams_spec (bucketValid : String → Bool)
    (c : S3Get.S3GetParams) :
    ((c.awsKey = "" ∨ c.awsSecret = "" ∨ c.remoteFile = "" ∨
        (c.localFile ≠ "" ∧ c.extractTo ≠ "") ∨
        (c.localFile = "" ∧ c.extractTo = "")) →
      ∀ c', S3Get.validateParams bucketValid c ≠ .ok c') ∧
    (∀ c', S3Get.validateParams bucketValid c = .ok c' →
      c'.region = (if c.region = "" then "us-east-1" else c.region) ∧
      c'.region ≠ "" ∧
      ((c'.localFile ≠ "" ∧ c'.extractTo = "") ∨
       (c'.localFile = "" ∧ c'.extractTo ≠ ""))) := by
  have hrest : ∀ (d : S3Get.S3GetParams) (c' : S3Get.S3GetParams),
      S3Get.validateParamsRest bucketValid d = .ok c' →
      c' = d ∧ ((d.localFile ≠ "" ∧ d.extractTo = "") ∨
        (d.localFile = "" ∧ d.extractTo ≠ "")) := by
    intro d c' hok
    unfold S3Get.validateParamsRest at hok
    split_ifs at hok with h1 h2 h3
    injection hok with hok
    subst hok
    refine ⟨rfl, ?_⟩
    tauto
  constructor
  · intro hbad c' hok
    unfold S3Get.validateParams at hok
    split_ifs at hok with h1 h2 h3 hr <;> try exact Except.noConfusion hok
    all_goals
      obtain ⟨hc', hone⟩ := hrest _ _ hok
    all_goals
      try dsimp only at hone
    all_goals tauto
  · intro c' hok
    unfold S3Get.validateParams at hok
    split_ifs at hok with h1 h2 h3 hr <;> try exact Except.noConfusion hok
    · obtain ⟨hc', hone⟩ := hrest _ _ hok
      subst hc'
      refine ⟨by simp [hr],
        fun hcon => absurd (show ("us-east-1" : String) = "" from hcon) (by decide), ?_⟩
      dsimp only at hone ⊢
      exact hone
    · obtain ⟨hc', hone⟩ := hrest _ _ hok
      subst hc'
      exact ⟨by simp [hr], hr, hone⟩

/-- Witness for `s3get_validateParams_spec` at a concrete configuration:
a validated `s3.get` with blank region gets region `us-east-1` and only
`local_file` set, while dropping `remote_file` makes validation fail. -/
theorem s3get_validateParams_spec_witness :
    (∀ c', S3Get.validateParams (fun _ => true) ⟨"k", "s", "", "", "b", "f", ""⟩ ≠
        .ok c') ∧
    ((S3Get.S3GetParams.mk "k" "s" "r" "us-east-1" "b" "f" "").region =
        (if (S3Get.S3GetParams.mk "k" "s" "r" "" "b" "f" "").region = ""
          then "us-east-1"
          else (S3Get.S3GetParams.mk "k" "s" "r" "" "b" "f" "").region) ∧
      (S3Get.S3GetParams.mk "k" "s" "r" "us-east-1" "b" "f" "").region ≠ "" ∧
      (((S3Get.S3GetParams.mk "k" "s" "r" "us-east-1" "b" "f" "").localFile ≠ "" ∧
          (S3Get.S3GetParams.mk "k" "s" "r" "us-east-1" "b" "f" "").extractTo = "") ∨
        ((S3Get.S3GetParams.mk "k" "s" "r" "us-east-1" "b" "f" "").localFile = "" ∧
          (S3Get.S3GetParams.mk "k" "s" "r" "us-east-1" "b" "f" "").extractTo ≠ ""))) :=
  ⟨(s3get_validateParams_spec (fun _ => true)
      ⟨"k", "s", "", "", "b", "f", ""⟩).1 (Or.inr (Or.inr (Or.inl rfl))),
    (s3get_validateParams_spec (fun _ => true)
      ⟨"k", "s", "r", "", "b", "f", ""⟩).2
      ⟨"k", "s", "r", "us-east-1", "b", "f", ""⟩ (by rfl)⟩

/-- C10: `s3get.getWithRetry` calls `get` at most `maxAttempts`
(`maxS3OpAttempts`) times; it returns success at the first succeeding attempt
having made exactly that many calls (never retrying after a success); whenever
the context is cancelled before an attempt — any attempt, since `ctx.Done()`
is checked at the top of every loop iteration — it returns the abort error
immediately, having made only the earlier attempts' calls; and when every
attempt fails it returns the failure error after exactly `maxAttempts`
calls. -/
theorem s3get_getWithRetry_spec (maxAttempts : Nat) (cancelled get : Nat → Bool) :
    ((S3Get.getWithRetry maxAttempts cancelled get).2 ≤ maxAttempts) ∧
    (∀ i, 1 ≤ i → i ≤ maxAttempts →
      (∀ j, 1 ≤ j → j < i → cancelled j = false ∧ get j = false) →
      cancelled i = false → get i = true →
      S3Get.getWithRetry maxAttempts cancelled get = (.ok (), i)) ∧
    (∀ i, 1 ≤ i → i ≤ maxAttempts →
      (∀ j, 1 ≤ j → j < i → cancelled j = false ∧ get j = false) →
      cancelled i = true →
      S3Get.getWithRetry maxAttempts cancelled get =
        (.error "s3 get operation aborted", i - 1)) ∧
    ((∀ i, 1 ≤ i → i ≤ maxAttempts → cancelled i = false ∧ get i = false) →
      S3Get.getWithRetry maxAttempts cancelled get =
        (.error "S3 get failed after max attempts", maxAttempts)) := by
  refine ⟨S3Get.getWithRetryAux_count_le cancelled get maxAttempts 1, ?_, ?_, ?_⟩
  · intro i h1 h2 h3 hc hg
    have := S3Get.getWithRetryAux_first_success cancelled get maxAttempts 1 i h1
      (by omega) (fun k hk1 hk2 => h3 k hk1 hk2) hc hg
    rw [S3Get.getWithRetry, this]
    congr 1
  · intro i h1 h2 h3 hc
    exact S3Get.getWithRetryAux_cancel_at cancelled get maxAttempts 1 i h1
      (by omega) (fun k hk1 hk2 => h3 k hk1 hk2) hc
  · intro h
    exact S3Get.getWithRetryAux_all_fail cancelled get maxAttempts 1
      (fun k hk1 hk2 => h k hk1 (by omega))

/-- Witness for `s3get_getWithRetry_spec`: with 5 allowed attempts, the first
two failing and the third succeeding, the retry loop stops at attempt 3;
with all attempts failing it reports failure after 5 calls; with the context
already cancelled it aborts before the first call; and with attempt 1 failing
and the context cancelled before attempt 2 it aborts after exactly one
call. -/
theorem s3get_getWithRetry_spec_witness :
    S3Get.getWithRetry 5 (fun _ => false) (fun i => i == 3) = (.ok (), 3) ∧
    S3Get.getWithRetry 5 (fun _ => false) (fun _ => false) =
      (.error "S3 get failed after max attempts", 5) ∧
    S3Get.getWithRetry 5 (fun _ => true) (fun _ => false) =
      (.error "s3 get operation aborted", 0) ∧
    S3Get.getWithRetry 5 (fun i => i == 2) (fun _ => false) =
      (.error "s3 get operation aborted", 1) := by
  refine ⟨?_, ?_, ?_, ?_⟩
  · exact (s3get_getWithRetry_spec 5 (fun _ => false) (fun i => i == 3)).2.1 3
      (by decide) (by decide)
      (fun j hj1 hj2 => by
        interval_cases j <;> exact ⟨rfl, rfl⟩)
      rfl rfl
  · exact (s3get_getWithRetry_spec 5 (fun _ => false) (fun _ => false)).2.2.2
      (fun i _ _ => ⟨rfl, rfl⟩)
  · exact (s3get_getWithRetry_spec 5 (fun _ => true) (fun _ => false)).2.2.1 1
      (by decide) (by decide) (fun j hj1 hj2 => absurd hj2 (by omega)) rfl
  · exact (s3get_getWithRetry_spec 5 (fun i => i == 2) (fun _ => false)).2.2.1 2
      (by decide) (by decide)
      (fun j hj1 hj2 => by
        have hj : j = 1 := by omega
        subst hj
        exact ⟨rfl, rfl⟩)
      rfl
